import Mathlib

/-!
# The `vespa document` command (client/go/src/cmd/document.go)

A shallow embedding of `put`, of the command handlers and of the command
registration done by `init`, followed by the properties proved about them.

The command talks to the outside through collaborators that live outside
`document.go`: the target resolver, `url.Parse`, `os.Open`, `util.HttpDo`
and the console helpers of `util`.  The first four are fields of `World`;
each call of a console helper, of `os.Open`, of `util.HttpDo` and of
`response.Body.Close` is recorded as an `Event`, in program order.  What
`url.Parse` does with a text is described by `net_url_Parse`, after Go's
`net/url`.
-/

namespace Vespa

/-! ## Data model -/

/-- Result of `url.Parse`: the fields of `net/url.URL` that hold the parts of
the parsed text.  `put` itself reads `Host` only. -/
structure URL where
  Host : String
  Scheme : String := ""
  Opaque : String := ""
  Path : String := ""
  RawQuery : String := ""
  Fragment : String := ""
  deriving DecidableEq, Repr

/-- An opened file (`*os.File`): its name and the bytes a reader gets from it. -/
structure File where
  name : String
  contents : String
  deriving DecidableEq, Repr

/-- The header map `http.Header`: keys with their value lists, in insertion order. -/
abbrev Header := List (String × List String)

/-- The method `Header.Add`: appends `value` to the values of `key`, creating the
entry when it is absent.  The only key the command adds, `Content-Type`, is
already in canonical MIME form, so no canonicalisation is applied. -/
def Header.Add : Header → String → String → Header
  | [], key, value => [(key, [value])]
  | (k, vs) :: rest, key, value =>
    if k = key then (k, vs ++ [value]) :: rest
    else (k, vs) :: Header.Add rest key value

/-- The fields of `http.Request` that `put` sets.  `URL` is `none` when
`url.Parse` failed: `put` discards the parse error and keeps the nil pointer. -/
structure Request where
  URL : Option URL
  Method : String
  Header : Header
  Body : File
  deriving DecidableEq, Repr

/-- The fields of `http.Response` that `put` reads.  `StatusCode` is a Go `int`;
`Body` is the content a reader of `response.Body` gets. -/
structure Response where
  Status : String
  StatusCode : Int
  Body : String
  deriving DecidableEq, Repr

/-- The constant `time.Second`, in nanoseconds (`time.Duration` is an `int64`). -/
def time_Second : Int := 1000000000

/-- The function `strings.ToLower` on ASCII text (the command applies it to the
ASCII constant `serviceDescription` only). -/
def strings_ToLower (s : String) : String :=
  String.mk (s.data.map Char.toLower)

/-- The collaborators of `put`. -/
structure World where
  /-- Value of `getTarget(documentContext).document`, the configured base address. -/
  target : String
  /-- Behaviour of `url.Parse`; `none` is a parse error (nil URL). -/
  url_Parse : String → Option URL
  /-- Behaviour of `os.Open`: the opened file, or the text of the error. -/
  os_Open : String → Except String File
  /-- Behaviour of `util.HttpDo request timeout description`; `none` is the nil
  response it returns after a transport failure. -/
  HttpDo : Request → Int → String → Option Response

/-- One observable action of the command, in program order. -/
inductive Event where
  /-- Call `os.Open(path)`. -/
  | open (path : String)
  /-- Call `util.HttpDo(request, timeout, description)`. -/
  | httpDo (request : Request) (timeout : Int) (description : String)
  /-- Call `util.Success(parts...)`. -/
  | success (parts : List String)
  /-- Call `util.Error(parts...)`. -/
  | error (parts : List String)
  /-- Call `util.Detail(parts...)`. -/
  | detail (parts : List String)
  /-- Call `util.PrintReader(response.Body)`, which reads and prints `body`. -/
  | printReader (body : String)
  /-- Call `response.Body.Close()`. -/
  | close
  deriving DecidableEq, Repr

/-- How a function ended: by returning, or by a run-time panic. -/
inductive Exit where
  | returned
  | panicked (reason : String)
  deriving DecidableEq, Repr

/-- What a run did: its events in order, and how it ended. -/
structure Outcome where
  events : List Event
  exit : Exit
  deriving DecidableEq, Repr

/-- Modelled from the spec: the console helpers of `util` (not in
`document.go`) print a multi-part message as its parts joined with spaces. -/
def messageText (parts : List String) : String :=
  " ".intercalate parts

/-- Events that write to the error channel: `util.Error`, `util.Detail` and
`util.PrintReader`. -/
def Event.isErrorOutput : Event → Bool
  | .error _ => true
  | .detail _ => true
  | .printReader _ => true
  | _ => false

/-- Events by which the command reports something to the user. -/
def Event.isReport : Event → Bool
  | .success _ => true
  | .error _ => true
  | .detail _ => true
  | .printReader _ => true
  | _ => false

/-- Events that call the HTTP helper. -/
def Event.isHttpDo : Event → Bool
  | .httpDo _ _ _ => true
  | _ => false

/-- Text `part` occurs in `text`. -/
def includes (text part : String) : Prop :=
  part.data <:+: text.data

instance (text part : String) : Decidable (includes text part) :=
  inferInstanceAs (Decidable (part.data <:+: text.data))

/-! ## `put` -/

/-- The `if`/`else if`/`else` of `put` on the status code (lines 87-95), the part
that runs after `defer response.Body.Close()` is registered. -/
def report (request : Request) (serviceDescription : String) (response : Response) :
    Outcome :=
  if response.StatusCode = 200 then
    ⟨[.success ["Success"]], .returned⟩
  else if response.StatusCode.tdiv 100 = 4 then
    ⟨[.error ["Invalid document (" ++ response.Status ++ "):"],
      .printReader response.Body], .returned⟩
  else
    match request.URL with
    | none => ⟨[], .panicked "nil pointer dereference"⟩
    | some url =>
      ⟨[.error ["Error from", strings_ToLower serviceDescription, "at", url.Host,
          "(" ++ response.Status ++ "):"],
        .printReader response.Body], .returned⟩

/-- A deferred call runs when the function ends, by return or by panic. -/
def withDeferred (deferred : List Event) (body : Outcome) : Outcome :=
  ⟨body.events ++ deferred, body.exit⟩

/-- The function `put(documentId, jsonFile)`. -/
def put (w : World) (documentId jsonFile : String) : Outcome :=
  let url := w.url_Parse (w.target ++ "/document/v1/" ++ documentId)
  let header := Header.Add [] "Content-Type" "application/json"
  match w.os_Open jsonFile with
  | .error fileError =>
    ⟨[.open jsonFile,
      .error ["Could not open file at " ++ jsonFile],
      .detail [fileError]], .returned⟩
  | .ok fileReader =>
    let request : Request :=
      { URL := url, Method := "POST", Header := header, Body := fileReader }
    let serviceDescription := "Container (document API)"
    match w.HttpDo request (time_Second * 60) serviceDescription with
    | none =>
      ⟨[.open jsonFile, .httpDo request (time_Second * 60) serviceDescription], .returned⟩
    | some response =>
      let rest := withDeferred [.close] (report request serviceDescription response)
      ⟨[.open jsonFile, .httpDo request (time_Second * 60) serviceDescription] ++ rest.events,
        rest.exit⟩

/-- The function `get(documentId)`: its body is empty. -/
def get (_documentId : String) : Outcome :=
  ⟨[], .returned⟩

/-- The request `put` hands to `util.HttpDo` once the file is open (lines 62-79). -/
def putRequest (w : World) (documentId : String) (fileReader : File) : Request :=
  { URL := w.url_Parse (w.target ++ "/document/v1/" ++ documentId)
    Method := "POST"
    Header := Header.Add [] "Content-Type" "application/json"
    Body := fileReader }

/-! ## `url.Parse`

The function `url.Parse` belongs to Go's standard library (`net/url`), not to
the repository.  The definitions of this section follow its algorithm on the
characters of the text, for URLs without user information and without an IPv6
literal; where the text is outside that part, `net_url_Parse` says so
(`ParseFailure.notModelled`) instead of giving an answer.  The fields
`ForceQuery`, `RawPath` and `RawFragment` of the result are left out. -/

/-- Why `net_url_Parse` gives no URL for a text. -/
inductive ParseFailure where
  /-- The function `url.Parse` returns an error. -/
  | error (text : String)
  /-- The text is outside the part of `net/url` described here. -/
  | notModelled
  deriving DecidableEq, Repr

/-- A control character: below `0x20`, or `0x7f`. -/
def isCTL (c : Char) : Bool :=
  c.toNat < 0x20 || c.toNat == 0x7f

/-- The helper `stringContainsCTLByte` of `net/url`. -/
def stringContainsCTLByte (s : List Char) : Bool :=
  s.any isCTL

/-- The helper `split(s, sep, true)` of `net/url`: the text before the first
`sep` and the text after it; all of `s` and nothing when `sep` does not occur. -/
def cutAt (sep : Char) : List Char → List Char × List Char
  | [] => ([], [])
  | c :: cs => if c = sep then ([], cs) else ((cutAt sep cs).1.cons c, (cutAt sep cs).2)

/-- An ASCII letter. -/
def isLetter (c : Char) : Bool :=
  (97 ≤ c.toNat && c.toNat ≤ 122) || (65 ≤ c.toNat && c.toNat ≤ 90)

/-- An ASCII digit. -/
def isDigit (c : Char) : Bool :=
  48 ≤ c.toNat && c.toNat ≤ 57

/-- The loop of `getScheme` at position `i` of `rawURL`, the characters from `i`
on being the list argument. -/
def getSchemeFrom (rawURL : List Char) : Nat → List Char →
    Except ParseFailure (List Char × List Char)
  | _, [] => .ok ([], rawURL)
  | i, c :: cs =>
    if isLetter c then getSchemeFrom rawURL (i + 1) cs
    else if isDigit c || c = '+' || c = '-' || c = '.' then
      if i = 0 then .ok ([], rawURL) else getSchemeFrom rawURL (i + 1) cs
    else if c = ':' then
      if i = 0 then .error (.error "missing protocol scheme")
      else .ok (rawURL.take i, cs)
    else .ok ([], rawURL)

/-- The helper `getScheme` of `net/url`: the scheme before the first `:` and the
text after it, or no scheme and the whole text. -/
def getScheme (rawURL : List Char) : Except ParseFailure (List Char × List Char) :=
  getSchemeFrom rawURL 0 rawURL

/-- The helper `ishex` of `net/url`. -/
def ishex (c : Char) : Bool :=
  isDigit c || (97 ≤ c.toNat && c.toNat ≤ 102) || (65 ≤ c.toNat && c.toNat ≤ 70)

/-- The helper `unhex` of `net/url`. -/
def unhex (c : Char) : Nat :=
  if isDigit c then c.toNat - 48
  else if 97 ≤ c.toNat && c.toNat ≤ 102 then c.toNat - 97 + 10
  else if 65 ≤ c.toNat && c.toNat ≤ 70 then c.toNat - 65 + 10
  else 0

/-- The helper `unescape` of `net/url` for a path or a fragment: every `%XX` is
replaced by the byte it names, and a `%` not followed by two hex digits is an
error.  A byte from `0x80` on is part of a multi-byte character and is outside
this description. -/
def unescape : List Char → Except ParseFailure (List Char)
  | [] => .ok []
  | c :: cs =>
    if c = '%' then
      match cs with
      | a :: b :: rest =>
        if ishex a && ishex b then
          if unhex a * 16 + unhex b < 0x80 then
            (unescape rest).map (List.cons (Char.ofNat (unhex a * 16 + unhex b)))
          else .error .notModelled
        else .error (.error "invalid URL escape")
      | _ => .error (.error "invalid URL escape")
    else (unescape cs).map (List.cons c)

/-- The punctuation `shouldEscape` lets stand in a host, next to letters and
digits; the last one is the apostrophe. -/
def hostPunctuation : List Char :=
  "!$&()*+,;=:[]<>\"-_.~".data ++ [Char.ofNat 39]

/-- The helper `shouldEscape(c, encodeHost)` of `net/url`. -/
def shouldEscapeHost (c : Char) : Bool :=
  !(isLetter c || isDigit c || c ∈ hostPunctuation)

/-- The text of `host` from its last `:` on, when it has one. -/
def colonPort : List Char → Option (List Char)
  | [] => none
  | c :: cs =>
    match colonPort cs with
    | some port => some port
    | none => if c = ':' then some (c :: cs) else none

/-- The helper `validOptionalPort` of `net/url`: nothing, or `:` and digits. -/
def validOptionalPort : List Char → Bool
  | [] => true
  | c :: digits => c = ':' && digits.all isDigit

/-- The helper `parseHost` of `net/url`, for a host that is no IPv6 literal and
holds no escape. -/
def parseHost (host : List Char) : Except ParseFailure (List Char) :=
  if host.head? = some '[' then .error .notModelled
  else if (match colonPort host with
      | some port => !validOptionalPort port
      | none => false) then .error (.error "invalid port after host")
  else if '%' ∈ host then .error .notModelled
  else if host.any (fun c => c.toNat < 0x80 && shouldEscapeHost c) then
    .error (.error "invalid character in host name")
  else .ok host

/-- The helper `parseAuthority` of `net/url`, for an authority without user
information. -/
def parseAuthority (authority : List Char) : Except ParseFailure (List Char) :=
  if '@' ∈ authority then .error .notModelled else parseHost authority

/-- The helper `parse(rawURL, false)` of `net/url`: the text without its
fragment is split into scheme, query, authority and path. -/
def parse (rawURL : List Char) : Except ParseFailure URL :=
  if stringContainsCTLByte rawURL then
    .error (.error "net/url: invalid control character in URL")
  else if rawURL = ['*'] then .ok { Host := "", Path := "*" }
  else
    match getScheme rawURL with
    | .error e => .error e
    | .ok (scheme, afterScheme) =>
      let split : List Char × List Char :=
        if afterScheme.getLast? = some '?' ∧ afterScheme.count '?' = 1 then
          (afterScheme.dropLast, [])
        else cutAt '?' afterScheme
      let rest := split.1
      let rawQuery := split.2
      if rest.head? ≠ some '/' ∧ scheme ≠ [] then
        .ok { Host := "", Scheme := strings_ToLower (String.mk scheme),
              Opaque := String.mk rest, RawQuery := String.mk rawQuery }
      else if rest.head? ≠ some '/' ∧ ':' ∈ (cutAt '/' rest).1 then
        .error (.error "first path segment in URL cannot contain colon")
      else
        match rest with
        | '/' :: '/' :: afterSlashes =>
          if scheme ≠ [] ∨ afterSlashes.head? ≠ some '/' then
            match parseAuthority (afterSlashes.takeWhile (fun c => c != '/')) with
            | .error e => .error e
            | .ok host =>
              match unescape (afterSlashes.dropWhile (fun c => c != '/')) with
              | .error e => .error e
              | .ok path =>
                .ok { Host := String.mk host, Scheme := strings_ToLower (String.mk scheme),
                      Path := String.mk path, RawQuery := String.mk rawQuery }
          else
            match unescape rest with
            | .error e => .error e
            | .ok path =>
              .ok { Host := "", Scheme := strings_ToLower (String.mk scheme),
                    Path := String.mk path, RawQuery := String.mk rawQuery }
        | _ =>
          match unescape rest with
          | .error e => .error e
          | .ok path =>
            .ok { Host := "", Scheme := strings_ToLower (String.mk scheme),
                  Path := String.mk path, RawQuery := String.mk rawQuery }

/-- The function `url.Parse` of `net/url`: the fragment is cut off at the first
`#`, the rest goes through `parse`, and the fragment is unescaped. -/
def net_url_Parse (rawURL : String) : Except ParseFailure URL :=
  match parse (cutAt '#' rawURL.data).1 with
  | .error e => .error e
  | .ok url =>
    if (cutAt '#' rawURL.data).2 = [] then .ok url
    else
      match unescape (cutAt '#' rawURL.data).2 with
      | .error e => .error e
      | .ok fragment => .ok { url with Fragment := String.mk fragment }

/-! ## Commands -/

/-- The commands `document.go` names.  `rootCmd` and `statusCmd` are declared in
other files of package `cmd`. -/
inductive Cmd where
  | rootCmd
  | statusCmd
  | documentCmd
  | documentPutCmd
  | documentGetCmd
  deriving DecidableEq, Repr

/-- The subcommands registered under each command (cobra's `commands`), in
order of registration. -/
abbrev Registry := Cmd → List Cmd

/-- The method `parent.AddCommand(child)`. -/
def AddCommand (r : Registry) (parent child : Cmd) : Registry :=
  fun c => if c = parent then r c ++ [child] else r c

/-- The function `init` of `document.go`, applied to the registrations `r`
made so far. -/
def init (r : Registry) : Registry :=
  let r := AddCommand r .rootCmd .documentCmd
  let r := AddCommand r .statusCmd .documentPutCmd
  AddCommand r .statusCmd .documentGetCmd

/-- The `Use` line of every command; those of `rootCmd` and `statusCmd`, given
in other files, are parameters. -/
def Cmd.Use (rootUse statusUse : String) : Cmd → String
  | .rootCmd => rootUse
  | .statusCmd => statusUse
  | .documentCmd => "document"
  | .documentPutCmd => "put mynamespace/mydocumenttype/myid mydocument.json"
  | .documentGetCmd => "get documentId"

/-- The method `Command.Name` of cobra: the first word of `Use`. -/
def Name (use : String) : String :=
  String.mk (use.data.takeWhile (fun ch => ch != ' '))

/-- The method `Command.Find` of cobra, for commands without aliases and
argument lists without flags: from `c`, follow the arguments down the
registered subcommands while they name one; the result is the command to run
and the arguments left for its handler. -/
def Find (r : Registry) (use : Cmd → String) : Cmd → List String → Cmd × List String
  | c, [] => (c, [])
  | c, next :: rest =>
    match (r c).find? (fun cmd => Name (use cmd) == next) with
    | some cmd => Find r use cmd rest
    | none => (c, next :: rest)

/-- A call a handler makes into `put` or `get`. -/
inductive Call where
  | put (documentId jsonFile : String)
  | get (documentId : String)
  deriving DecidableEq, Repr

/-- The index expression `args[i]`: it panics when `i` is out of range. -/
def index (args : List String) (i : Nat) : Except String String :=
  match args[i]? with
  | some a => .ok a
  | none => .error "index out of range"

/-- Handler `Run` of `documentCmd`: `put(args[0], args[1])`.  The arguments are
evaluated left to right before the call. -/
def documentCmd_Run (args : List String) : Except String Call := do
  let documentId ← index args 0
  let jsonFile ← index args 1
  pure (.put documentId jsonFile)

/-- Handler `Run` of `documentPutCmd`: `put(args[0], args[1])`. -/
def documentPutCmd_Run (args : List String) : Except String Call := do
  let documentId ← index args 0
  let jsonFile ← index args 1
  pure (.put documentId jsonFile)

/-- Handler `Run` of `documentGetCmd`: `get(args[0])`. -/
def documentGetCmd_Run (args : List String) : Except String Call := do
  let documentId ← index args 0
  pure (.get documentId)

/-- Running a handler: a panic while its arguments are evaluated ends the run
before any call; otherwise the call is made. -/
def runHandler (w : World) : Except String Call → Outcome
  | .error reason => ⟨[], .panicked reason⟩
  | .ok (.put documentId jsonFile) => put w documentId jsonFile
  | .ok (.get documentId) => get documentId

/-- Events that open a file. -/
def Event.isOpen : Event → Bool
  | .open _ => true
  | _ => false

/-! ## Example worlds -/

/-- A world for the scenarios of the specification: the base address is
`http://127.0.0.1:8080`, the only file is `doc.json`, and the HTTP helper answers
every request with the given status code, status line and body. -/
def answering (code : Int) (status body : String) : World :=
  { target := "http://127.0.0.1:8080"
    url_Parse := fun _ => some { Host := "127.0.0.1:8080" }
    os_Open := fun path =>
      if path = "doc.json" then .ok ⟨"doc.json", "\x7b\"fields\":\x7b\"a\":1\x7d\x7d"⟩
      else .error ("open " ++ path ++ ": no such file or directory")
    HttpDo := fun _ _ _ => some ⟨status, code, body⟩ }

/-- The same world with an unreachable server: the HTTP helper returns nil. -/
def unreachable : World :=
  { answering 0 "" "" with HttpDo := fun _ _ _ => none }

/-- The file `doc.json` of the example worlds. -/
def docJson : File :=
  ⟨"doc.json", "\x7b\"fields\":\x7b\"a\":1\x7d\x7d"⟩

/-- Modelled from the spec: the registrations made outside `document.go`
(the files declaring `rootCmd` and `statusCmd` are missing); commands are
attached to a shared root, so `statusCmd` is a command of `rootCmd`. -/
def otherFiles : Registry :=
  fun c => if c = .rootCmd then [.statusCmd] else []

/-- The world of the scenarios with `url.Parse` being `net_url_Parse`: the server
answers 200 to every request that has a URL; a request without one is not sent,
and the HTTP helper returns nil for it. -/
def parsing : World :=
  { target := "http://127.0.0.1:8080"
    url_Parse := fun text =>
      match net_url_Parse text with
      | .ok url => some url
      | .error _ => none
    os_Open := (answering 200 "200 OK" "").os_Open
    HttpDo := fun request _ _ =>
      if request.URL.isSome then some ⟨"200 OK", 200, ""⟩ else none }

/-! ## Auxiliary facts -/

/-- Go's truncating `c / 100 == 4` holds exactly on `[400, 499]`. -/
theorem tdiv_100_eq_4 (c : Int) : c.tdiv 100 = 4 ↔ 400 ≤ c ∧ c ≤ 499 := by
  rcases Int.le_total 0 c with h | h
  · rw [Int.tdiv_eq_ediv h (by decide)]; omega
  · have h1 : (-c).tdiv 100 = (-c) / 100 := Int.tdiv_eq_ediv (by omega) (by decide)
    have h2 : c.tdiv 100 = -((-c).tdiv 100) := by
      rw [Int.neg_tdiv, Int.neg_neg]
    rw [h2, h1]; omega

/-- With the file open and a response at hand, `put` is the open, the one HTTP
call, the report on the status code, and the deferred close. -/
theorem put_of_response (w : World) (documentId jsonFile : String)
    (fileReader : File) (response : Response)
    (hopen : w.os_Open jsonFile = .ok fileReader)
    (hresp : w.HttpDo (putRequest w documentId fileReader) (time_Second * 60)
      "Container (document API)" = some response) :
    put w documentId jsonFile =
      ⟨[.open jsonFile,
        .httpDo (putRequest w documentId fileReader) (time_Second * 60)
          "Container (document API)"]
        ++ (report (putRequest w documentId fileReader) "Container (document API)"
              response).events
        ++ [.close],
       (report (putRequest w documentId fileReader) "Container (document API)"
          response).exit⟩ := by
  unfold putRequest at hresp
  simp only [put, hopen, hresp, putRequest, withDeferred, List.append_assoc]

/-- The three branches of `report`. -/
theorem report_200 (request : Request) (d : String) (response : Response)
    (h : response.StatusCode = 200) :
    report request d response = ⟨[.success ["Success"]], .returned⟩ := by
  simp [report, h]

theorem report_4xx (request : Request) (d : String) (response : Response)
    (h : 400 ≤ response.StatusCode ∧ response.StatusCode ≤ 499) :
    report request d response =
      ⟨[.error ["Invalid document (" ++ response.Status ++ "):"],
        .printReader response.Body], .returned⟩ := by
  have h4 := (tdiv_100_eq_4 response.StatusCode).mpr h
  have h2 : response.StatusCode ≠ 200 := by omega
  simp [report, h2, h4]

theorem report_other (request : Request) (d : String) (response : Response)
    (h200 : response.StatusCode ≠ 200)
    (h4 : ¬ (400 ≤ response.StatusCode ∧ response.StatusCode ≤ 499)) :
    report request d response =
      match request.URL with
      | none => ⟨[], .panicked "nil pointer dereference"⟩
      | some url =>
        ⟨[.error ["Error from", strings_ToLower d, "at", url.Host,
            "(" ++ response.Status ++ "):"],
          .printReader response.Body], .returned⟩ := by
  have h4 : ¬ response.StatusCode.tdiv 100 = 4 := fun h => h4 ((tdiv_100_eq_4 _).mp h)
  simp [report, h200, h4]

/-- With the file open and no response, `put` is the open and the one HTTP call. -/
theorem put_of_no_response (w : World) (documentId jsonFile : String)
    (fileReader : File)
    (hopen : w.os_Open jsonFile = .ok fileReader)
    (hresp : w.HttpDo (putRequest w documentId fileReader) (time_Second * 60)
      "Container (document API)" = none) :
    put w documentId jsonFile =
      ⟨[.open jsonFile,
        .httpDo (putRequest w documentId fileReader) (time_Second * 60)
          "Container (document API)"], .returned⟩ := by
  unfold putRequest at hresp
  simp only [put, hopen, hresp, putRequest]

/-- The report on the status code only uses the console helpers: it makes no
HTTP call and does not close the body. -/
theorem report_events (request : Request) (d : String) (response : Response) :
    ∀ e ∈ (report request d response).events,
      e.isReport = true ∧ e.isHttpDo = false ∧ e ≠ .close := by
  intro e he
  unfold report at he
  split_ifs at he
  · simp at he; subst he; simp [Event.isReport, Event.isHttpDo]
  · simp at he; rcases he with he | he <;> subst he <;> simp [Event.isReport, Event.isHttpDo]
  · cases hu : request.URL with
    | none => rw [hu] at he; simp at he
    | some u =>
      rw [hu] at he; simp at he
      rcases he with he | he <;> subst he <;> simp [Event.isReport, Event.isHttpDo]

/-- A message of one part is that part. -/
theorem messageText_singleton (s : String) : messageText [s] = s := by
  simp [messageText, String.intercalate, String.intercalate.go]

/-! ### Facts about `net_url_Parse` -/

theorem cutAt_of_not_mem (sep : Char) (l : List Char) (h : sep ∉ l) :
    cutAt sep l = (l, []) := by
  induction l with
  | nil => rfl
  | cons c cs ih =>
    have hc : c ≠ sep := fun e => h (by simp [e])
    have hcs : sep ∉ cs := fun e => h (by simp [e])
    simp [cutAt, hc, ih hcs]

theorem getSchemeFrom_letters (s rest : List Char) (hs : ∀ c ∈ s, isLetter c = true) :
    ∀ pre : List Char, 0 < pre.length + s.length →
      getSchemeFrom (pre ++ s ++ ':' :: rest) pre.length (s ++ ':' :: rest)
        = .ok (pre ++ s, rest) := by
  induction s with
  | nil =>
    intro pre hpos
    have hp : pre.length ≠ 0 := by
      have : 0 < pre.length := by simpa using hpos
      omega
    have h1 : isLetter ':' = false := by decide
    have h2 : isDigit ':' = false := by decide
    simp [getSchemeFrom, h1, h2, hp]
  | cons c cs ih =>
    intro pre _
    have hc : isLetter c = true := hs c (by simp)
    have := ih (fun d hd => hs d (by simp [hd])) (pre ++ [c]) (by simp)
    simp only [List.append_assoc, List.singleton_append, List.length_append,
      List.length_singleton] at this
    simp only [List.cons_append, getSchemeFrom, hc, if_true, List.append_assoc]
    exact this

theorem unescape_of_not_mem (l : List Char) (h : '%' ∉ l) : unescape l = .ok l := by
  induction l with
  | nil => rfl
  | cons c cs ih =>
    have hc : c ≠ '%' := fun e => h (by simp [e])
    have hcs : '%' ∉ cs := fun e => h (by simp [e])
    unfold unescape
    rw [if_neg hc, ih hcs]
    rfl

theorem takeWhile_not_slash (host rest : List Char) (h : '/' ∉ host) :
    (host ++ '/' :: rest).takeWhile (fun c => c != '/') = host
    ∧ (host ++ '/' :: rest).dropWhile (fun c => c != '/') = '/' :: rest := by
  induction host with
  | nil => simp
  | cons c cs ih =>
    have hc : c ≠ '/' := fun e => h (by simp [e])
    have hcs : '/' ∉ cs := fun e => h (by simp [e])
    simp [hc, ih hcs]

theorem isLetter_facts (c : Char) (h : isLetter c = true) :
    isCTL c = false ∧ c ≠ '#' ∧ c ≠ '?' ∧ c ≠ '*' := by
  refine ⟨?_, ?_, ?_, ?_⟩
  · simp only [isLetter, isCTL, Bool.or_eq_true, Bool.and_eq_true, decide_eq_true_eq,
      Bool.or_eq_false_iff, decide_eq_false_iff_not, beq_eq_false_iff_ne, ne_eq] at h ⊢
    omega
  all_goals (intro e; subst e; revert h; decide)

theorem shouldEscapeHost_of_isCTL (c : Char) (h : isCTL c = true) :
    c.toNat < 0x80 ∧ shouldEscapeHost c = true := by
  have hlist : ∀ d ∈ hostPunctuation, isCTL d = false := by decide
  have hmem : c ∉ hostPunctuation := by
    intro hc
    rw [hlist c hc] at h
    cases h
  simp only [isCTL, Bool.or_eq_true, decide_eq_true_eq, beq_iff_eq] at h
  refine ⟨by omega, ?_⟩
  have h1 : isLetter c = false := by
    simp only [isLetter, Bool.or_eq_false_iff, Bool.and_eq_false_iff, decide_eq_false_iff_not]
    omega
  have h2 : isDigit c = false := by
    simp only [isDigit, Bool.and_eq_false_iff, decide_eq_false_iff_not]
    omega
  simp [shouldEscapeHost, h1, h2, hmem]

theorem parseAuthority_chars (host accepted : List Char)
    (h : parseAuthority host = .ok accepted) :
    ∀ c ∈ host, c ≠ '/' ∧ c ≠ '?' ∧ c ≠ '#' ∧ isCTL c = false := by
  unfold parseAuthority parseHost at h
  split_ifs at h with h1 h2 h3 h4 h5
  intro c hc
  have hsafe : ¬ (c.toNat < 0x80 ∧ shouldEscapeHost c = true) := by
    intro hbad
    apply h5
    rw [List.any_eq_true]
    exact ⟨c, hc, by simp [hbad.1, hbad.2]⟩
  refine ⟨?_, ?_, ?_, ?_⟩
  · intro e; subst e; exact hsafe (by decide)
  · intro e; subst e; exact hsafe (by decide)
  · intro e; subst e; exact hsafe (by decide)
  · cases hctl : isCTL c with
    | false => rfl
    | true => exact absurd (shouldEscapeHost_of_isCTL c hctl) hsafe

theorem parse_base_path (scheme host path : List Char)
    (hscheme : scheme ≠ []) (hletters : ∀ c ∈ scheme, isLetter c = true)
    (hhost : parseAuthority host = .ok host)
    (hpath : ∀ c ∈ path, c ≠ '?' ∧ c ≠ '#' ∧ c ≠ '%' ∧ isCTL c = false) :
    parse (scheme ++ "://".data ++ host ++ '/' :: path) =
      .ok { Host := String.mk host, Scheme := strings_ToLower (String.mk scheme),
            Path := String.mk ('/' :: path) } := by
  have hhostc := parseAuthority_chars host host hhost
  have hctl : stringContainsCTLByte (scheme ++ "://".data ++ host ++ '/' :: path) = false := by
    rw [stringContainsCTLByte, List.any_eq_false]
    intro c hc
    simp only [List.mem_append] at hc
    rcases hc with ((hc | hc) | hc) | hc
    · simp [(isLetter_facts c (hletters c hc)).1]
    · have : ∀ d ∈ "://".data, isCTL d = false := by decide
      simp [this c hc]
    · simp [(hhostc c hc).2.2.2]
    · rcases List.mem_cons.mp hc with hc | hc
      · subst hc; decide
      · simp [(hpath c hc).2.2.2]
  have hstar : scheme ++ "://".data ++ host ++ '/' :: path ≠ ['*'] := by
    intro e
    have := congrArg List.length e
    simp at this
    omega
  have hget : getScheme (scheme ++ "://".data ++ host ++ '/' :: path)
      = .ok (scheme, "//".data ++ host ++ '/' :: path) := by
    have := getSchemeFrom_letters scheme ("//".data ++ host ++ '/' :: path) hletters []
      (by
        cases scheme with
        | nil => exact absurd rfl hscheme
        | cons _ _ => simp)
    simpa [getScheme] using this
  have hq : '?' ∉ "//".data ++ host ++ '/' :: path := by
    intro hc
    simp only [List.mem_append] at hc
    rcases hc with (hc | hc) | hc
    · revert hc; decide
    · exact (hhostc _ hc).2.1 rfl
    · rcases List.mem_cons.mp hc with hc | hc
      · revert hc; decide
      · exact (hpath _ hc).1 rfl
  have hcount : ("//".data ++ host ++ '/' :: path).count '?' ≠ 1 := by
    rw [List.count_eq_zero_of_not_mem hq]; decide
  have hslash : '/' ∉ host := fun hc => (hhostc _ hc).1 rfl
  have hpct : '%' ∉ '/' :: path := by
    intro hc
    rcases List.mem_cons.mp hc with hc | hc
    · revert hc; decide
    · exact (hpath _ hc).2.2.1 rfl
  have htw := takeWhile_not_slash host path hslash
  unfold parse
  rw [hctl, if_neg (by decide), if_neg hstar, hget]
  simp only [hcount, and_false, if_false, cutAt_of_not_mem '?' _ hq]
  simp [hscheme, htw.1, htw.2, hhost, unescape_of_not_mem _ hpct]

theorem net_url_Parse_base_path (scheme host path : String)
    (hscheme : scheme ≠ "") (hletters : ∀ c ∈ scheme.data, isLetter c = true)
    (hhost : parseAuthority host.data = .ok host.data)
    (hpath : ∀ c ∈ path.data, c ≠ '?' ∧ c ≠ '#' ∧ c ≠ '%' ∧ isCTL c = false) :
    net_url_Parse (scheme ++ "://" ++ host ++ "/" ++ path) =
      .ok { Host := host, Scheme := strings_ToLower scheme, Path := "/" ++ path } := by
  have hhostc := parseAuthority_chars host.data host.data hhost
  have hdata : (scheme ++ "://" ++ host ++ "/" ++ path).data
      = scheme.data ++ "://".data ++ host.data ++ '/' :: path.data := by
    simp [String.data_append]
  have hfrag : '#' ∉ scheme.data ++ "://".data ++ host.data ++ '/' :: path.data := by
    intro hc
    simp only [List.mem_append] at hc
    rcases hc with ((hc | hc) | hc) | hc
    · exact (isLetter_facts _ (hletters _ hc)).2.1 rfl
    · revert hc; decide
    · exact (hhostc _ hc).2.2.1 rfl
    · rcases List.mem_cons.mp hc with hc | hc
      · revert hc; decide
      · exact (hpath _ hc).2.1 rfl
  have hs : scheme.data ≠ [] := by
    intro e
    apply hscheme
    exact String.ext e
  unfold net_url_Parse
  rw [hdata, cutAt_of_not_mem '#' _ hfrag]
  simp only [parse_base_path scheme.data host.data path.data hs hletters hhost hpath,
    if_true]
  rfl

/-! ## Properties of `put` -/

/-- C1: for every response the HTTP helper returns, `put` takes the "invalid
document" outcome - it reports the error `Invalid document (<status line>):` and
then prints the response body to the error channel - if and only if the status
code `c` satisfies `400 ≤ c ≤ 499`; the test `c / 100 == 4` with Go's truncating
division agrees with that range on every integer. -/
theorem put_invalid_document_iff_4xx (w : World) (documentId jsonFile : String)
    (fileReader : File) (response : Response)
    (hopen : w.os_Open jsonFile = .ok fileReader)
    (hresp : w.HttpDo (putRequest w documentId fileReader) (time_Second * 60)
      "Container (document API)" = some response) :
    ((put w documentId jsonFile).events =
        [.open jsonFile,
         .httpDo (putRequest w documentId fileReader) (time_Second * 60)
           "Container (document API)",
         .error ["Invalid document (" ++ response.Status ++ "):"],
         .printReader response.Body,
         .close]
      ↔ 400 ≤ response.StatusCode ∧ response.StatusCode ≤ 499)
    ∧ (response.StatusCode.tdiv 100 = 4
        ↔ 400 ≤ response.StatusCode ∧ response.StatusCode ≤ 499)
    ∧ messageText ["Invalid document (" ++ response.Status ++ "):"]
        = "Invalid document (" ++ response.Status ++ "):" := by
  refine ⟨?_, tdiv_100_eq_4 _, ?_⟩
  · rw [put_of_response w documentId jsonFile fileReader response hopen hresp]
    constructor
    · intro h
      by_contra hc
      by_cases h200 : response.StatusCode = 200
      · rw [report_200 _ _ _ h200] at h
        simp at h
      · rw [report_other _ _ _ h200 hc] at h
        cases hu : (putRequest w documentId fileReader).URL with
        | none => rw [hu] at h; simp at h
        | some u => rw [hu] at h; simp at h
    · intro h
      rw [report_4xx _ _ _ h]
      simp
  · simp [messageText, String.intercalate, String.intercalate.go]

/-- C1, at the scenario of the specification: the server answers 400 with body
`{"message":"bad field"}`. -/
theorem put_invalid_document_iff_4xx_witness :
    ((put (answering 400 "400 Bad Request" "\x7b\"message\":\"bad field\"\x7d")
        "ns/type/id1" "doc.json").events =
        [.open "doc.json",
         .httpDo (putRequest (answering 400 "400 Bad Request"
             "\x7b\"message\":\"bad field\"\x7d") "ns/type/id1" docJson)
           (time_Second * 60) "Container (document API)",
         .error ["Invalid document (" ++ "400 Bad Request" ++ "):"],
         .printReader "\x7b\"message\":\"bad field\"\x7d",
         .close]
      ↔ (400 : Int) ≤ 400 ∧ (400 : Int) ≤ 499)
    ∧ ((400 : Int).tdiv 100 = 4 ↔ (400 : Int) ≤ 400 ∧ (400 : Int) ≤ 499)
    ∧ messageText ["Invalid document (" ++ "400 Bad Request" ++ "):"]
        = "Invalid document (" ++ "400 Bad Request" ++ "):" :=
  put_invalid_document_iff_4xx
    (answering 400 "400 Bad Request" "\x7b\"message\":\"bad field\"\x7d")
    "ns/type/id1" "doc.json" docJson
    ⟨"400 Bad Request", 400, "\x7b\"message\":\"bad field\"\x7d"⟩ rfl rfl

/-- C2: for every response with status code 200, `put` reports the one success
message `Success`, whatever the document id and the response body, and writes
nothing to the error channel: no error, no detail line, no printed body. -/
theorem put_200_success (w : World) (documentId jsonFile : String)
    (fileReader : File) (response : Response)
    (hopen : w.os_Open jsonFile = .ok fileReader)
    (hresp : w.HttpDo (putRequest w documentId fileReader) (time_Second * 60)
      "Container (document API)" = some response)
    (h200 : response.StatusCode = 200) :
    put w documentId jsonFile =
        ⟨[.open jsonFile,
          .httpDo (putRequest w documentId fileReader) (time_Second * 60)
            "Container (document API)",
          .success ["Success"],
          .close], .returned⟩
    ∧ (put w documentId jsonFile).events.filter Event.isReport = [.success ["Success"]]
    ∧ (put w documentId jsonFile).events.filter Event.isErrorOutput = []
    ∧ messageText ["Success"] = "Success" := by
  rw [put_of_response w documentId jsonFile fileReader response hopen hresp,
    report_200 _ _ _ h200]
  refine ⟨rfl, ?_, ?_, ?_⟩
  · simp [Event.isReport]
  · simp [Event.isErrorOutput]
  · simp [messageText, String.intercalate, String.intercalate.go]

/-- C2, at the scenario of the specification: `put("ns/type/id1", "doc.json")`
with the server answering 200. -/
theorem put_200_success_witness :
    put (answering 200 "200 OK" "") "ns/type/id1" "doc.json" =
        ⟨[.open "doc.json",
          .httpDo (putRequest (answering 200 "200 OK" "") "ns/type/id1" docJson)
            (time_Second * 60) "Container (document API)",
          .success ["Success"],
          .close], .returned⟩
    ∧ (put (answering 200 "200 OK" "") "ns/type/id1" "doc.json").events.filter
        Event.isReport = [.success ["Success"]]
    ∧ (put (answering 200 "200 OK" "") "ns/type/id1" "doc.json").events.filter
        Event.isErrorOutput = []
    ∧ messageText ["Success"] = "Success" :=
  put_200_success (answering 200 "200 OK" "") "ns/type/id1" "doc.json" docJson
    ⟨"200 OK", 200, ""⟩ rfl rfl rfl

/-- C4: for every document id and every path that cannot be opened, `put` calls
the HTTP helper zero times, reports exactly one error, `Could not open file at `
followed by the path, then the text of the OS error as a detail line, and
returns with no further output. -/
theorem put_open_failure (w : World) (documentId jsonFile fileError : String)
    (hopen : w.os_Open jsonFile = .error fileError) :
    put w documentId jsonFile =
        ⟨[.open jsonFile,
          .error ["Could not open file at " ++ jsonFile],
          .detail [fileError]], .returned⟩
    ∧ (put w documentId jsonFile).events.countP Event.isHttpDo = 0
    ∧ messageText ["Could not open file at " ++ jsonFile]
        = "Could not open file at " ++ jsonFile
    ∧ includes (messageText ["Could not open file at " ++ jsonFile]) jsonFile
    ∧ messageText [fileError] = fileError := by
  have hput : put w documentId jsonFile =
      ⟨[.open jsonFile, .error ["Could not open file at " ++ jsonFile],
        .detail [fileError]], .returned⟩ := by
    simp only [put, hopen]
  have htext : ∀ s : String, messageText [s] = s := by
    intro s; simp [messageText, String.intercalate, String.intercalate.go]
  refine ⟨hput, ?_, htext _, ?_, htext _⟩
  · rw [hput]; simp [Event.isHttpDo]
  · rw [htext]
    exact ⟨"Could not open file at ".data, [], by simp [String.data_append]⟩

/-- C4, at the scenario of the specification: `put("ns/type/id2", "missing.json")`
where the file does not exist. -/
theorem put_open_failure_witness :
    put (answering 200 "200 OK" "") "ns/type/id2" "missing.json" =
        ⟨[.open "missing.json",
          .error ["Could not open file at " ++ "missing.json"],
          .detail ["open missing.json: no such file or directory"]], .returned⟩
    ∧ (put (answering 200 "200 OK" "") "ns/type/id2" "missing.json").events.countP
        Event.isHttpDo = 0
    ∧ messageText ["Could not open file at " ++ "missing.json"]
        = "Could not open file at " ++ "missing.json"
    ∧ includes (messageText ["Could not open file at " ++ "missing.json"]) "missing.json"
    ∧ messageText ["open missing.json: no such file or directory"]
        = "open missing.json: no such file or directory" :=
  put_open_failure (answering 200 "200 OK" "") "ns/type/id2" "missing.json"
    "open missing.json: no such file or directory" rfl

/-- C7: for every document id and readable file, when the HTTP helper returns no
response, `put` reports nothing itself - no success, error or detail message and
no printed body -, closes no response body, and returns. -/
theorem put_transport_failure (w : World) (documentId jsonFile : String)
    (fileReader : File)
    (hopen : w.os_Open jsonFile = .ok fileReader)
    (hresp : w.HttpDo (putRequest w documentId fileReader) (time_Second * 60)
      "Container (document API)" = none) :
    put w documentId jsonFile =
        ⟨[.open jsonFile,
          .httpDo (putRequest w documentId fileReader) (time_Second * 60)
            "Container (document API)"], .returned⟩
    ∧ (put w documentId jsonFile).events.filter Event.isReport = []
    ∧ Event.close ∉ (put w documentId jsonFile).events := by
  have hput : put w documentId jsonFile =
      ⟨[.open jsonFile,
        .httpDo (putRequest w documentId fileReader) (time_Second * 60)
          "Container (document API)"], .returned⟩ := by
    unfold putRequest at hresp
    simp only [put, hopen, hresp, putRequest]
  refine ⟨hput, ?_, ?_⟩
  · rw [hput]; simp [Event.isReport]
  · rw [hput]; simp

/-- C7, with an unreachable server. -/
theorem put_transport_failure_witness :
    put unreachable "ns/type/id1" "doc.json" =
        ⟨[.open "doc.json",
          .httpDo (putRequest unreachable "ns/type/id1" docJson) (time_Second * 60)
            "Container (document API)"], .returned⟩
    ∧ (put unreachable "ns/type/id1" "doc.json").events.filter Event.isReport = []
    ∧ Event.close ∉ (put unreachable "ns/type/id1" "doc.json").events :=
  put_transport_failure unreachable "ns/type/id1" "doc.json" docJson rfl rfl

/-- C6: for every document id and every path that can be opened, `put` calls the
HTTP helper exactly once, whatever it answers, and that call carries method
`POST`, the header set `Content-Type: application/json` and nothing else, the
opened file as body, a timeout of 60 seconds and the description
`Container (document API)`. -/
theorem put_one_post (w : World) (documentId jsonFile : String) (fileReader : File)
    (hopen : w.os_Open jsonFile = .ok fileReader) :
    ∃ request : Request,
      (put w documentId jsonFile).events.filter Event.isHttpDo =
          [.httpDo request (time_Second * 60) "Container (document API)"]
      ∧ (put w documentId jsonFile).events.countP Event.isHttpDo = 1
      ∧ request.Method = "POST"
      ∧ request.Header = [("Content-Type", ["application/json"])]
      ∧ request.Body = fileReader
      ∧ request.Body.contents = fileReader.contents
      ∧ time_Second * 60 = 60 * 1000000000 := by
  have hfilter : (put w documentId jsonFile).events.filter Event.isHttpDo =
      [.httpDo (putRequest w documentId fileReader) (time_Second * 60)
        "Container (document API)"] := by
    cases hresp : w.HttpDo (putRequest w documentId fileReader) (time_Second * 60)
        "Container (document API)" with
    | none =>
      rw [put_of_no_response w documentId jsonFile fileReader hopen hresp]
      simp [Event.isHttpDo]
    | some response =>
      rw [put_of_response w documentId jsonFile fileReader response hopen hresp]
      have hnone : (report (putRequest w documentId fileReader)
          "Container (document API)" response).events.filter Event.isHttpDo = [] := by
        rw [List.filter_eq_nil_iff]
        intro e he
        simp [(report_events _ _ _ e he).2.1]
      simp [List.filter_append, hnone, Event.isHttpDo]
  refine ⟨putRequest w documentId fileReader, hfilter, ?_, rfl, rfl, rfl, rfl, by decide⟩
  rw [List.countP_eq_length_filter, hfilter]
  rfl

/-- C6, at the scenario of the specification. -/
theorem put_one_post_witness :
    ∃ request : Request,
      (put (answering 200 "200 OK" "") "ns/type/id1" "doc.json").events.filter
          Event.isHttpDo =
          [.httpDo request (time_Second * 60) "Container (document API)"]
      ∧ (put (answering 200 "200 OK" "") "ns/type/id1" "doc.json").events.countP
          Event.isHttpDo = 1
      ∧ request.Method = "POST"
      ∧ request.Header = [("Content-Type", ["application/json"])]
      ∧ request.Body = docJson
      ∧ request.Body.contents = docJson.contents
      ∧ time_Second * 60 = 60 * 1000000000 :=
  put_one_post (answering 200 "200 OK" "") "ns/type/id1" "doc.json" docJson rfl

/-- C8: for every response the HTTP helper returns, whatever its status code,
`put` closes the response body exactly once and as its last action: everything
the status branch does - the status message, the printing of the body - comes
before the close, and nothing, in particular no read of the body, comes after. -/
theorem put_closes_body_last (w : World) (documentId jsonFile : String)
    (fileReader : File) (response : Response)
    (hopen : w.os_Open jsonFile = .ok fileReader)
    (hresp : w.HttpDo (putRequest w documentId fileReader) (time_Second * 60)
      "Container (document API)" = some response) :
    (put w documentId jsonFile).events =
        ([.open jsonFile,
          .httpDo (putRequest w documentId fileReader) (time_Second * 60)
            "Container (document API)"]
          ++ (report (putRequest w documentId fileReader) "Container (document API)"
                response).events)
        ++ [.close]
    ∧ Event.close ∉
        ([.open jsonFile,
          .httpDo (putRequest w documentId fileReader) (time_Second * 60)
            "Container (document API)"]
          ++ (report (putRequest w documentId fileReader) "Container (document API)"
                response).events : List Event)
    ∧ (put w documentId jsonFile).events.count .close = 1
    ∧ (put w documentId jsonFile).events.getLast? = some .close
    ∧ ((put w documentId jsonFile).exit = .returned →
        ∃ parts rest,
          (report (putRequest w documentId fileReader) "Container (document API)"
              response).events = (.success parts : Event) :: rest
          ∨ (report (putRequest w documentId fileReader) "Container (document API)"
              response).events = (.error parts : Event) :: rest) := by
  have hnot : Event.close ∉
      ([.open jsonFile,
        .httpDo (putRequest w documentId fileReader) (time_Second * 60)
          "Container (document API)"]
        ++ (report (putRequest w documentId fileReader) "Container (document API)"
              response).events : List Event) := by
    intro h
    rcases List.mem_append.mp h with h | h
    · simp at h
    · exact (report_events _ _ _ _ h).2.2 rfl
  rw [put_of_response w documentId jsonFile fileReader response hopen hresp]
  refine ⟨rfl, hnot, ?_, ?_, ?_⟩
  · show List.count Event.close (_ ++ [Event.close]) = 1
    rw [List.count_append, List.count_eq_zero_of_not_mem hnot]
    simp
  · show List.getLast? (_ ++ [Event.close]) = some Event.close
    rw [List.getLast?_append]
    simp
  · intro hexit
    simp only at hexit
    unfold report at hexit ⊢
    split_ifs at hexit ⊢
    · exact ⟨["Success"], [], Or.inl rfl⟩
    · exact ⟨_, _, Or.inr rfl⟩
    · cases hu : (putRequest w documentId fileReader).URL with
      | none => rw [hu] at hexit; simp at hexit
      | some u => exact ⟨_, _, Or.inr rfl⟩

/-- C8, with the server answering 503. -/
theorem put_closes_body_last_witness :
    (put (answering 503 "503 Service Unavailable" "busy") "ns/type/id1" "doc.json").events
      = ([.open "doc.json",
          .httpDo (putRequest (answering 503 "503 Service Unavailable" "busy")
              "ns/type/id1" docJson) (time_Second * 60) "Container (document API)"]
          ++ (report (putRequest (answering 503 "503 Service Unavailable" "busy")
                "ns/type/id1" docJson) "Container (document API)"
                ⟨"503 Service Unavailable", 503, "busy"⟩).events)
        ++ [.close]
    ∧ (put (answering 503 "503 Service Unavailable" "busy") "ns/type/id1"
        "doc.json").events.count .close = 1
    ∧ (put (answering 503 "503 Service Unavailable" "busy") "ns/type/id1"
        "doc.json").events.getLast? = some .close :=
  have h := put_closes_body_last (answering 503 "503 Service Unavailable" "busy")
    "ns/type/id1" "doc.json" docJson ⟨"503 Service Unavailable", 503, "busy"⟩ rfl rfl
  ⟨h.1, h.2.2.1, h.2.2.2.1⟩

/-- C3, refuted as stated: with the server answering 500, the error `put` reports
reads `Error from container (document api) at 127.0.0.1:8080 (500 Internal
Server Error):`; the description appears in lower case, so no error `put`
reports includes the text `Container (document API)`. -/
theorem put_other_status_counterexample :
    (put (answering 500 "500 Internal Server Error" "oops") "ns/type/id1"
        "doc.json").events.filter Event.isReport =
      [.error ["Error from", "container (document api)", "at", "127.0.0.1:8080",
         "(500 Internal Server Error):"],
       .printReader "oops"]
    ∧ messageText ["Error from", "container (document api)", "at", "127.0.0.1:8080",
         "(500 Internal Server Error):"] =
        "Error from container (document api) at 127.0.0.1:8080 (500 Internal Server Error):"
    ∧ ¬ ∃ parts, Event.error parts ∈
          (put (answering 500 "500 Internal Server Error" "oops") "ns/type/id1"
            "doc.json").events
        ∧ includes (messageText parts) "Container (document API)" := by
  have hput : (put (answering 500 "500 Internal Server Error" "oops") "ns/type/id1"
      "doc.json").events =
      [.open "doc.json",
       .httpDo (putRequest (answering 500 "500 Internal Server Error" "oops")
          "ns/type/id1" docJson) (time_Second * 60) "Container (document API)",
       .error ["Error from", "container (document api)", "at", "127.0.0.1:8080",
         "(500 Internal Server Error):"],
       .printReader "oops",
       .close] := by
    rw [put_of_response (answering 500 "500 Internal Server Error" "oops")
      "ns/type/id1" "doc.json" docJson ⟨"500 Internal Server Error", 500, "oops"⟩ rfl rfl]
    rfl
  have htext : messageText ["Error from", "container (document api)", "at",
      "127.0.0.1:8080", "(500 Internal Server Error):"] =
      "Error from container (document api) at 127.0.0.1:8080 (500 Internal Server Error):" := by
    decide
  refine ⟨?_, htext, ?_⟩
  · rw [hput]; rfl
  · rintro ⟨parts, hmem, hinc⟩
    rw [hput] at hmem
    simp at hmem
    subst hmem
    rw [htext] at hinc
    have hC : 'C' ∈ "Error from container (document api) at 127.0.0.1:8080 (500 Internal Server Error):".data :=
      hinc.subset (by decide)
    exact absurd hC (by decide)

/-- C3, amended: for every response whose status code is neither 200 nor in
`[400, 499]`, `put` never reports success; and when the request URL parsed, it
reports the error `Error from container (document api) at <host> (<status
line>):` - the service description in lower case, the host of the request URL and
the literal status line - and then prints the response body to the error
channel. -/
theorem put_other_status_error (w : World) (documentId jsonFile : String)
    (fileReader : File) (response : Response)
    (hopen : w.os_Open jsonFile = .ok fileReader)
    (hresp : w.HttpDo (putRequest w documentId fileReader) (time_Second * 60)
      "Container (document API)" = some response)
    (h200 : response.StatusCode ≠ 200)
    (h4xx : ¬ (400 ≤ response.StatusCode ∧ response.StatusCode ≤ 499)) :
    (∀ parts, Event.success parts ∉ (put w documentId jsonFile).events)
    ∧ ∀ url : URL, w.url_Parse (w.target ++ "/document/v1/" ++ documentId) = some url →
      put w documentId jsonFile =
          ⟨[.open jsonFile,
            .httpDo (putRequest w documentId fileReader) (time_Second * 60)
              "Container (document API)",
            .error ["Error from", "container (document api)", "at", url.Host,
              "(" ++ response.Status ++ "):"],
            .printReader response.Body,
            .close], .returned⟩
      ∧ messageText ["Error from", "container (document api)", "at", url.Host,
            "(" ++ response.Status ++ "):"] =
          "Error from container (document api) at " ++ url.Host ++ " ("
            ++ response.Status ++ "):"
      ∧ includes
          ("Error from container (document api) at " ++ url.Host ++ " ("
            ++ response.Status ++ "):")
          (strings_ToLower "Container (document API)")
      ∧ includes
          ("Error from container (document api) at " ++ url.Host ++ " ("
            ++ response.Status ++ "):")
          url.Host
      ∧ includes
          ("Error from container (document api) at " ++ url.Host ++ " ("
            ++ response.Status ++ "):")
          response.Status := by
  have hput := put_of_response w documentId jsonFile fileReader response hopen hresp
  have hrep := report_other (putRequest w documentId fileReader)
    "Container (document API)" response h200 h4xx
  constructor
  · intro parts hmem
    rw [hput, hrep] at hmem
    cases hu : (putRequest w documentId fileReader).URL with
    | none => rw [hu] at hmem; simp at hmem
    | some u => rw [hu] at hmem; simp at hmem
  · intro url hurl
    have hu : (putRequest w documentId fileReader).URL = some url := hurl
    rw [hu] at hrep
    have hlow : strings_ToLower "Container (document API)" = "container (document api)" := by
      decide
    refine ⟨?_, ?_, ?_, ?_, ?_⟩
    · rw [hput, hrep, hlow]; rfl
    · apply String.ext
      simp [messageText, String.intercalate, String.intercalate.go, String.data_append]
    · rw [hlow]
      exact ⟨"Error from ".data, (" at " ++ url.Host ++ " (" ++ response.Status ++ "):").data,
        by simp [String.data_append]⟩
    · exact ⟨"Error from container (document api) at ".data,
        (" (" ++ response.Status ++ "):").data, by simp [String.data_append]⟩
    · exact ⟨("Error from container (document api) at " ++ url.Host ++ " (").data,
        "):".data, by simp [String.data_append]⟩

/-- C3 amended, with the server answering 503. -/
theorem put_other_status_error_witness :
    put (answering 503 "503 Service Unavailable" "busy") "ns/type/id1" "doc.json" =
      ⟨[.open "doc.json",
        .httpDo (putRequest (answering 503 "503 Service Unavailable" "busy")
            "ns/type/id1" docJson) (time_Second * 60) "Container (document API)",
        .error ["Error from", "container (document api)", "at", "127.0.0.1:8080",
          "(" ++ "503 Service Unavailable" ++ "):"],
        .printReader "busy",
        .close], .returned⟩ :=
  ((put_other_status_error (answering 503 "503 Service Unavailable" "busy")
      "ns/type/id1" "doc.json" docJson ⟨"503 Service Unavailable", 503, "busy"⟩
      rfl rfl (by decide) (by decide)).2 { Host := "127.0.0.1:8080" } rfl).1

/-- C5, refuted as stated: with `url.Parse` being `net_url_Parse` and the base
address `http://127.0.0.1:8080`, the request for the document id
`ns/type/id1?x=1` has the path `/document/v1/ns/type/id1`, the rest of the id
being its query, and for the document id `ns/type/%zz` the text does not parse,
so the request has no URL at all. -/
theorem put_request_url_counterexample :
    "ns/type/id1?x=1" ≠ ""
    ∧ (put parsing "ns/type/id1?x=1" "doc.json").events =
        [.open "doc.json",
         .httpDo
           { URL := some { Host := "127.0.0.1:8080", Scheme := "http",
                           Path := "/document/v1/ns/type/id1", RawQuery := "x=1" }
             Method := "POST"
             Header := [("Content-Type", ["application/json"])]
             Body := docJson }
           (time_Second * 60) "Container (document API)",
         .success ["Success"],
         .close]
    ∧ "/document/v1/ns/type/id1" ≠ "/document/v1/" ++ "ns/type/id1?x=1"
    ∧ "ns/type/%zz" ≠ ""
    ∧ net_url_Parse ("http://127.0.0.1:8080" ++ "/document/v1/" ++ "ns/type/%zz")
        = .error (.error "invalid URL escape")
    ∧ (put parsing "ns/type/%zz" "doc.json").events =
        [.open "doc.json",
         .httpDo
           { URL := none
             Method := "POST"
             Header := [("Content-Type", ["application/json"])]
             Body := docJson }
           (time_Second * 60) "Container (document API)"] := by
  refine ⟨by decide, rfl, by decide, by decide, rfl, rfl⟩

/-- C5, amended: for every base address, every non-empty document id and every
readable file, the URL of the request `put` sends is what `url.Parse` returns for
the base address followed by `/document/v1/` followed by the document id, taken
verbatim; when `url.Parse` parses as `net/url` does, the base address is
`<scheme>://<host>` with a scheme of letters and a host `net/url` accepts, and
the document id holds no `?`, `#`, `%` or control character, that URL has this
scheme (in lower case) and host and the path `/document/v1/` followed by the
document id, with no query and no fragment. -/
theorem put_request_url (w : World) (documentId jsonFile : String) (fileReader : File)
    (_hid : documentId ≠ "")
    (hopen : w.os_Open jsonFile = .ok fileReader) :
    ∃ (request : Request) (rest : List Event),
      (put w documentId jsonFile).events =
          .open jsonFile
            :: .httpDo request (time_Second * 60) "Container (document API)" :: rest
      ∧ request.URL = w.url_Parse (w.target ++ "/document/v1/" ++ documentId)
      ∧ ∀ scheme host : String,
          (∀ text url, net_url_Parse text = .ok url → w.url_Parse text = some url) →
          w.target = scheme ++ "://" ++ host →
          scheme ≠ "" →
          (∀ c ∈ scheme.data, isLetter c = true) →
          parseAuthority host.data = .ok host.data →
          (∀ c ∈ documentId.data, c ≠ '?' ∧ c ≠ '#' ∧ c ≠ '%' ∧ isCTL c = false) →
          request.URL =
            some { Host := host, Scheme := strings_ToLower scheme,
                   Path := "/document/v1/" ++ documentId } := by
  have hpath : ∀ scheme host : String,
      (∀ text url, net_url_Parse text = .ok url → w.url_Parse text = some url) →
      w.target = scheme ++ "://" ++ host →
      scheme ≠ "" →
      (∀ c ∈ scheme.data, isLetter c = true) →
      parseAuthority host.data = .ok host.data →
      (∀ c ∈ documentId.data, c ≠ '?' ∧ c ≠ '#' ∧ c ≠ '%' ∧ isCTL c = false) →
      (putRequest w documentId fileReader).URL =
        some { Host := host, Scheme := strings_ToLower scheme,
               Path := "/document/v1/" ++ documentId } := by
    intro scheme host hagree htarget hscheme hletters hhost hid
    have hchars : ∀ c ∈ ("document/v1/" ++ documentId).data,
        c ≠ '?' ∧ c ≠ '#' ∧ c ≠ '%' ∧ isCTL c = false := by
      intro c hc
      rw [String.data_append, List.mem_append] at hc
      rcases hc with hc | hc
      · have hlit : ∀ d ∈ "document/v1/".data,
            d ≠ '?' ∧ d ≠ '#' ∧ d ≠ '%' ∧ isCTL d = false := by decide
        exact hlit c hc
      · exact hid c hc
    have htext : w.target ++ "/document/v1/" ++ documentId
        = scheme ++ "://" ++ host ++ "/" ++ ("document/v1/" ++ documentId) := by
      rw [htarget]
      have hlit : ("/document/v1/" : String) = "/" ++ "document/v1/" := by decide
      rw [hlit]
      simp only [String.append_assoc]
    have hparsed := net_url_Parse_base_path scheme host ("document/v1/" ++ documentId)
      hscheme hletters hhost hchars
    have hp : ("/" ++ ("document/v1/" ++ documentId) : String)
        = "/document/v1/" ++ documentId := by
      have hlit : ("/document/v1/" : String) = "/" ++ "document/v1/" := by decide
      rw [hlit, String.append_assoc]
    show w.url_Parse (w.target ++ "/document/v1/" ++ documentId) = _
    rw [htext, hagree _ _ hparsed, hp]
  cases hresp : w.HttpDo (putRequest w documentId fileReader) (time_Second * 60)
      "Container (document API)" with
  | none =>
    exact ⟨putRequest w documentId fileReader, [],
      by rw [put_of_no_response w documentId jsonFile fileReader hopen hresp],
      rfl, hpath⟩
  | some response =>
    exact ⟨putRequest w documentId fileReader, _,
      by rw [put_of_response w documentId jsonFile fileReader response hopen hresp]; rfl,
      rfl, hpath⟩

/-- C5 amended, at the scenario of the specification: for the document id
`ns/type/id1` and the base address `http://127.0.0.1:8080` the request goes to
host `127.0.0.1:8080` with path `/document/v1/ns/type/id1`. -/
theorem put_request_url_witness :
    ∃ (request : Request) (rest : List Event),
      (put parsing "ns/type/id1" "doc.json").events =
          .open "doc.json"
            :: .httpDo request (time_Second * 60) "Container (document API)" :: rest
      ∧ request.URL =
          some { Host := "127.0.0.1:8080", Scheme := "http",
                 Path := "/document/v1/" ++ "ns/type/id1" } :=
  match put_request_url parsing "ns/type/id1" "doc.json" docJson (by decide) rfl with
  | ⟨request, rest, hevents, _, hpath⟩ =>
    ⟨request, rest, hevents,
      hpath "http" "127.0.0.1:8080"
        (fun text url h => by
          show (match net_url_Parse text with
            | .ok url => some url
            | .error _ => none) = some url
          rw [h])
        rfl (by decide) (by decide) rfl (by decide)⟩

/-! ## Properties of the commands -/

/-- C9, evaluated on the code: `init` registers the put and get commands under
`statusCmd` and nothing under `documentCmd`; so, with `statusCmd` hanging under
the root, `document put <documentId> <jsonFile>` runs the handler of
`documentCmd` on `put, <documentId>, <jsonFile>`, which calls
`put("put", documentId)`, and `document get <documentId>` calls
`put("get", documentId)`. -/
theorem init_registers_put_under_status (r : Registry) (documentId jsonFile : String) :
    init r .documentCmd = r .documentCmd
    ∧ init r .statusCmd = r .statusCmd ++ [.documentPutCmd, .documentGetCmd]
    ∧ init r .rootCmd = r .rootCmd ++ [.documentCmd]
    ∧ Find (init otherFiles) (Cmd.Use "vespa" "status") .rootCmd
          ["document", "put", documentId, jsonFile]
        = (.documentCmd, ["put", documentId, jsonFile])
    ∧ documentCmd_Run ["put", documentId, jsonFile] = .ok (.put "put" documentId)
    ∧ Find (init otherFiles) (Cmd.Use "vespa" "status") .rootCmd
          ["document", "get", documentId]
        = (.documentCmd, ["get", documentId])
    ∧ documentCmd_Run ["get", documentId] = .ok (.put "get" documentId)
    ∧ Find (init otherFiles) (Cmd.Use "vespa" "status") .rootCmd
          ["status", "put", documentId, jsonFile]
        = (.documentPutCmd, [documentId, jsonFile]) := by
  refine ⟨?_, ?_, ?_, ?_, rfl, ?_, rfl, ?_⟩
  · simp [init, AddCommand]
  · simp [init, AddCommand]
  · simp [init, AddCommand]
  · rfl
  · rfl
  · rfl

/-- C10: for every argument list given to the handler of `documentCmd`, and
likewise to that of `documentPutCmd`, `put` is called if and only if there are at
least two arguments, and then as `put(args[0], args[1])`, further arguments
ignored; with fewer than two the handler panics on the index before any call, so
no file is opened and no HTTP call is made. -/
theorem handlers_call_put_iff_two_args (w : World) (args : List String) :
    ((∃ call, documentCmd_Run args = .ok call) ↔ 2 ≤ args.length)
    ∧ (∀ a b rest, args = a :: b :: rest →
        documentCmd_Run args = .ok (.put a b)
        ∧ runHandler w (documentCmd_Run args) = put w a b)
    ∧ (args.length < 2 →
        documentCmd_Run args = .error "index out of range"
        ∧ runHandler w (documentCmd_Run args) = ⟨[], .panicked "index out of range"⟩
        ∧ (runHandler w (documentCmd_Run args)).events.countP Event.isOpen = 0
        ∧ (runHandler w (documentCmd_Run args)).events.countP Event.isHttpDo = 0)
    ∧ ((∃ call, documentPutCmd_Run args = .ok call) ↔ 2 ≤ args.length)
    ∧ (∀ a b rest, args = a :: b :: rest →
        documentPutCmd_Run args = .ok (.put a b)
        ∧ runHandler w (documentPutCmd_Run args) = put w a b)
    ∧ (args.length < 2 →
        documentPutCmd_Run args = .error "index out of range"
        ∧ runHandler w (documentPutCmd_Run args) = ⟨[], .panicked "index out of range"⟩
        ∧ (runHandler w (documentPutCmd_Run args)).events.countP Event.isOpen = 0
        ∧ (runHandler w (documentPutCmd_Run args)).events.countP Event.isHttpDo = 0) := by
  have hsame : documentPutCmd_Run args = documentCmd_Run args := rfl
  have hshort : args.length < 2 → documentCmd_Run args = .error "index out of range" := by
    intro h
    match args, h with
    | [], _ => rfl
    | [_], _ => rfl
  have hlong : ∀ a b rest, args = a :: b :: rest →
      documentCmd_Run args = .ok (.put a b) := by
    intro a b rest h
    subst h
    simp [documentCmd_Run, index, bind, Except.bind, pure, Except.pure]
  have hiff : (∃ call, documentCmd_Run args = .ok call) ↔ 2 ≤ args.length := by
    constructor
    · rintro ⟨call, hcall⟩
      by_contra hlt
      rw [hshort (by omega)] at hcall
      cases hcall
    · intro h
      match args, h with
      | a :: b :: rest, _ => exact ⟨_, hlong a b rest rfl⟩
  have hrun : args.length < 2 →
      documentCmd_Run args = .error "index out of range"
      ∧ runHandler w (documentCmd_Run args) = ⟨[], .panicked "index out of range"⟩
      ∧ (runHandler w (documentCmd_Run args)).events.countP Event.isOpen = 0
      ∧ (runHandler w (documentCmd_Run args)).events.countP Event.isHttpDo = 0 := by
    intro h
    rw [hshort h]
    exact ⟨rfl, rfl, rfl, rfl⟩
  have hcall : ∀ a b rest, args = a :: b :: rest →
      documentCmd_Run args = .ok (.put a b)
      ∧ runHandler w (documentCmd_Run args) = put w a b := by
    intro a b rest h
    rw [hlong a b rest h]
    exact ⟨rfl, rfl⟩
  rw [hsame]
  exact ⟨hiff, hcall, hrun, hiff, hcall, hrun⟩

end Vespa
